import Mathlib

/-!
Verification development for the NBA stats multi-source collection and
reconciliation pipeline.

The repository ships the design of the pipeline (README, the web-scraping
specification document with its RETRY_CONFIG and VALIDATION_RULES
declarations) together with the React presentation layer (Dashboard,
DataCollection pages).  The pipeline components themselves (Validator,
Reconciler, Run Coordinator, Canonical Store, trigger interface) are not
implemented in the repository; where a definition below embeds one of those
components it is modelled from the specification and says so in its doc
comment.  The React pages are embedded directly from their source.

Numeric statistics are modelled as rationals; raw field values are the
tagged union string|number|null that the design prescribes for scraped
payloads.
-/

/-- Raw field value as produced by a source adapter: the design represents
raw payload values as a tagged union string|number|null. -/
inductive FieldValue
  | str (s : String)
  | num (q : ℚ)
  | null
  deriving DecidableEq, Repr

/-- RawRecord: source identifier, entity key as supplied by the source
(name, team, season), a mapping of field name to raw value, and the fetch
timestamp. -/
structure RawRecord where
  sourceId : String
  rawName : String
  rawTeam : String
  season : String
  fields : List (String × FieldValue)
  fetchedAt : Nat
  deriving DecidableEq, Repr

/-- Look a field up in a raw record's field mapping. -/
def getField (r : RawRecord) (f : String) : Option FieldValue :=
  (r.fields.find? fun p => p.1 == f).map (fun p => p.2)

/-- Required fields, from VALIDATION_RULES.required_fields in the scraping
specification (src/unnamed/part_003). -/
def requiredFields : List String :=
  ["player_name", "team", "ppg", "rpg", "apg"]

/-- Documented plausible numeric ranges, from VALIDATION_RULES.numeric_ranges
in the scraping specification (src/unnamed/part_003). -/
def numericRanges : List (String × ℚ × ℚ) :=
  [("ppg", 0, 50), ("rpg", 0, 20), ("apg", 0, 15), ("efg", 0, 1), ("ts", 0, 1)]

/-- A required field is missing when it is absent from the mapping or bound
to null. -/
def fieldMissing (r : RawRecord) (f : String) : Bool :=
  match getField r f with
  | none => true
  | some FieldValue.null => true
  | some _ => false

/-- A numeric field is out of range when it is present, numeric, and lies
outside the documented plausible range. -/
def outOfRange (r : RawRecord) (f : String) (lo hi : ℚ) : Bool :=
  match getField r f with
  | some (FieldValue.num q) => decide (q < lo) || decide (hi < q)
  | _ => false

/-- Required fields of a record that are missing. -/
def missingRequired (r : RawRecord) : List String :=
  requiredFields.filter fun f => fieldMissing r f

/-- Ranged fields of a record whose value lies outside the documented range. -/
def invalidRangeFields (r : RawRecord) : List (String × ℚ × ℚ) :=
  numericRanges.filter fun t => outOfRange r t.1 t.2.1 t.2.2

/-- Number of required fields whose value is outside its documented range. -/
def requiredInvalidCount (r : RawRecord) : Nat :=
  ((invalidRangeFields r).filter fun t => requiredFields.contains t.1).length

inductive VStatus
  | accepted
  | repaired
  | rejected
  deriving DecidableEq, Repr

/-- Field-level violation: field, violated rule, observed value. -/
structure Violation where
  field : String
  rule : String
  observed : FieldValue
  deriving DecidableEq, Repr

/-- ValidationOutcome wraps the (possibly repaired) record with a status and
the list of field-level violations. -/
structure ValidationOutcome where
  record : RawRecord
  status : VStatus
  violations : List Violation
  deriving DecidableEq, Repr

/-- Clamp-to-null repair: the offending fields become absent and the rest of
the record is kept. -/
def clampToNull (r : RawRecord) (bad : List String) : RawRecord :=
  { r with fields := r.fields.filter fun p => !(bad.contains p.1) }

/-- Range violations of a record, for the audit log. -/
def rangeViolations (r : RawRecord) : List Violation :=
  (invalidRangeFields r).map fun t =>
    { field := t.1, rule := "range", observed := (getField r t.1).getD FieldValue.null }

/-- Modelled from the spec: the Validator component itself is not implemented
in the repository; only VALIDATION_RULES (src/unnamed/part_003) declares its
configuration.  Policy per the design: a missing required field rejects the
record; a numeric field outside its documented range is repaired by
clamping-to-null, unless more than the configured fraction of required
fields are invalid, in which case the record is rejected. -/
def validate (maxInvalidFraction : ℚ) (r : RawRecord) : ValidationOutcome :=
  if (missingRequired r).isEmpty then
    if (requiredInvalidCount r : ℚ) >
        maxInvalidFraction * (requiredFields.length : ℚ) then
      { record := r, status := VStatus.rejected, violations := rangeViolations r }
    else if (invalidRangeFields r).isEmpty then
      { record := r, status := VStatus.accepted, violations := [] }
    else
      { record := clampToNull r ((invalidRangeFields r).map (fun t => t.1)),
        status := VStatus.repaired, violations := rangeViolations r }
  else
    { record := r, status := VStatus.rejected,
      violations := (missingRequired r).map fun f =>
        { field := f, rule := "required", observed := FieldValue.null } }

/-- Validated outcomes that reach the Reconciler, paired with the original
raw record they came from: rejected records are dropped, accepted and
repaired ones are passed on. -/
def validOutcomes (frac : ℚ) (rs : List RawRecord) :
    List (RawRecord × RawRecord) :=
  rs.filterMap fun x =>
    if (validate frac x).status = VStatus.rejected then none
    else some (x, (validate frac x).record)

/-- Name-suffix tokens folded away by entity-key normalization. -/
def suffixTokens : List String := ["jr", "sr", "ii", "iii", "iv"]

/-- Modelled from the spec: entity-key name normalization (the Reconciler is
not implemented in the repository).  Case folding, dropping periods, and
suffix folding over the design's suffix list; diacritics are kept as the
sources report them. -/
def normalizeName (s : String) : String :=
  String.intercalate " "
    ((((s.toLower).replace "." "").splitOn " ").filter fun w =>
      !(suffixTokens.contains w) && !(w == ""))

/-- EntityKey: canonicalized identity grouping records across sources. -/
structure EntityKey where
  name : String
  team : String
  season : String
  deriving DecidableEq, Repr

/-- Modelled from the spec: resolution of a raw record to its EntityKey uses
normalized-name plus team plus season matching; records agreeing on the
normalized name but reporting different teams resolve to distinct
EntityKeys (the design's irreconcilable-ambiguity branch records both). -/
def resolveKey (r : RawRecord) : EntityKey :=
  { name := normalizeName r.rawName, team := r.rawTeam, season := r.season }

/-- Choice made for one canonical field: the selected value, the raw record
that contributed it, the conflict flag, and the confidence score. -/
structure FieldChoice where
  value : FieldValue
  contributor : RawRecord
  conflicted : Bool
  confidence : ℚ
  deriving DecidableEq, Repr

/-- CanonicalRecord: one per EntityKey, each field tagged with its
contributing source record and a confidence score. -/
structure CanonicalRecord where
  key : EntityKey
  fields : List (String × FieldChoice)
  deriving DecidableEq, Repr

/-- Precedence rank of a source: its index in the configured precedence
order; sources not configured rank below all configured ones. -/
def rankOf (prec : List String) (s : String) : Nat :=
  match prec with
  | [] => 0
  | p :: ps => if p = s then 0 else rankOf ps s + 1

/-- Numeric values among a candidate list. -/
def numValsOf (cands : List (RawRecord × FieldValue)) : List ℚ :=
  cands.filterMap fun x =>
    match x.2 with
    | FieldValue.num q => some q
    | _ => none

/-- Insert into a sorted list of rationals. -/
def insertSorted (q : ℚ) : List ℚ → List ℚ
  | [] => [q]
  | x :: xs => if q ≤ x then q :: x :: xs else x :: insertSorted q xs

/-- Sort a list of rationals ascending. -/
def sortQ (l : List ℚ) : List ℚ := l.foldr insertSorted []

/-- Median of a list of rationals (average of the two middle elements for
even length; zero for the empty list). -/
def medianQ (l : List ℚ) : ℚ :=
  match (sortQ l).get? (l.length / 2), (sortQ l).get? ((l.length - 1) / 2) with
  | some a, some b => (a + b) / 2
  | _, _ => 0

/-- Distance of a candidate value from the median; non-numeric values get
distance zero so the first-configured one wins ties. -/
def distTo (med : ℚ) (v : FieldValue) : ℚ :=
  match v with
  | FieldValue.num q => |q - med|
  | _ => 0

/-- Best (smallest) precedence rank among a candidate list. -/
def bestRank (prec : List String) (cands : List (RawRecord × FieldValue)) : Nat :=
  match cands with
  | [] => 0
  | c :: cs => cs.foldl (fun m x => min m (rankOf prec x.1.sourceId))
      (rankOf prec c.1.sourceId)

/-- Candidates whose source has the best precedence rank. -/
def topRanked (prec : List String) (cands : List (RawRecord × FieldValue)) :
    List (RawRecord × FieldValue) :=
  cands.filter fun x => rankOf prec x.1.sourceId == bestRank prec cands

/-- Among a candidate list, pick the one whose value is closest to the
median, keeping the earlier candidate on ties. -/
def pickClosest (med : ℚ) :
    List (RawRecord × FieldValue) → Option (RawRecord × FieldValue)
  | [] => none
  | c :: cs =>
      some (cs.foldl
        (fun best x => if distTo med x.2 < distTo med best.2 then x else best) c)

/-- Conflict detection: two candidate sources disagree beyond the configured
tolerance (numeric), or report unequal non-numeric values. -/
def conflictAmong (tol : ℚ) (cands : List (RawRecord × FieldValue)) : Bool :=
  cands.any fun a => cands.any fun b =>
    match a.2, b.2 with
    | FieldValue.num x, FieldValue.num y => decide (tol < |x - y|)
    | u, v => decide (¬ u = v)

/-- Modelled from the spec: field-value selection of the Reconciler (not
implemented in the repository).  Candidates are ranked by configured source
precedence; among the top-ranked the value closest to the median of all
candidates wins; disagreement beyond the tolerance flags the field
conflicted and degrades confidence without blocking the commit. -/
def selectValue (prec : List String) (tol : ℚ)
    (cands : List (RawRecord × FieldValue)) : Option FieldChoice :=
  match pickClosest (medianQ (numValsOf cands)) (topRanked prec cands) with
  | none => none
  | some ch =>
      some { value := ch.2, contributor := ch.1,
             conflicted := conflictAmong tol cands,
             confidence := (if conflictAmong tol cands then (1 : ℚ) / 2 else 1) /
               (1 + (bestRank prec cands : ℚ)) }

/-- Field names appearing in a group of validated records, in first
appearance order. -/
def fieldNamesOf (group : List (RawRecord × RawRecord)) : List String :=
  ((group.map fun p => p.2.fields.map (fun q => q.1)).flatten).dedup

/-- Candidate (contributor, value) pairs for one field of a group; the
contributor is the original raw record, the value is read from its
validated form. -/
def candidatesFor (group : List (RawRecord × RawRecord)) (f : String) :
    List (RawRecord × FieldValue) :=
  group.filterMap fun p => (getField p.2 f).map fun v => (p.1, v)

/-- Modelled from the spec: the Reconciler's per-entity merge (not
implemented in the repository). -/
def mergeGroup (prec : List String) (tol : ℚ) (k : EntityKey)
    (group : List (RawRecord × RawRecord)) : CanonicalRecord :=
  { key := k,
    fields := (fieldNamesOf group).filterMap fun f =>
      (selectValue prec tol (candidatesFor group f)).map fun ch => (f, ch) }

/-- Reconciliation configuration: source precedence order and the numeric
conflict tolerance. -/
structure ReconcileConfig where
  precedence : List String
  tolerance : ℚ

/-- Modelled from the spec: the full Reconciler pass (not implemented in the
repository): group the validated records of the run by resolved EntityKey
and merge each group into one CanonicalRecord. -/
def reconcileAll (cfg : ReconcileConfig) (vo : List (RawRecord × RawRecord)) :
    List CanonicalRecord :=
  ((vo.map fun p => resolveKey p.2).dedup).map fun k =>
    mergeGroup cfg.precedence cfg.tolerance k
      (vo.filter fun p => decide (resolveKey p.2 = k))

/-- RETRY_CONFIG.max_retries (src/unnamed/part_003): number of retries after
the initial attempt. -/
def maxRetries : Nat := 3

/-- RETRY_CONFIG.retry_delay in seconds (src/unnamed/part_003): the backoff
base. -/
def retryDelayBase : Nat := 5

/-- RETRY_CONFIG.backoff_factor (src/unnamed/part_003). -/
def backoffFactor : Nat := 2

/-- Modelled from the spec: the Backoff Policy's delay formula (the policy
itself is not implemented in the repository; RETRY_CONFIG in
src/unnamed/part_003 declares base and factor, the cap is configured). -/
def nextRetryDelay (cap : Nat) (attempt : Nat) : Nat :=
  min (retryDelayBase * backoffFactor ^ attempt) cap

/-- Trace of one source's fetch with retries: number of attempts made, the
waits taken between attempts in order, and whether the source ended in
success. -/
structure RetryTrace where
  attempts : Nat
  waits : List Nat
  succeeded : Bool
  deriving DecidableEq, Repr

/-- Modelled from the spec: the retry loop as explicit state (attempt count,
remaining retries, accumulated waits); the environment is a function giving
each attempt's outcome. -/
def retryLoopAux (cap : Nat) (outcomes : Nat → Bool) :
    Nat → Nat → List Nat → RetryTrace
  | attemptIdx, 0, waits =>
      if outcomes attemptIdx then
        { attempts := attemptIdx + 1, waits := waits.reverse, succeeded := true }
      else
        { attempts := attemptIdx + 1, waits := waits.reverse, succeeded := false }
  | attemptIdx, n + 1, waits =>
      if outcomes attemptIdx then
        { attempts := attemptIdx + 1, waits := waits.reverse, succeeded := true }
      else
        retryLoopAux cap outcomes (attemptIdx + 1) n
          (nextRetryDelay cap attemptIdx :: waits)

/-- Modelled from the spec: one source's fetch under the Backoff Policy, with
the initial attempt plus up to maxRetries retries, waiting
nextRetryDelay(k) after the k-th consecutive failure. -/
def runWithRetry (cap : Nat) (outcomes : Nat → Bool) : RetryTrace :=
  retryLoopAux cap outcomes 0 maxRetries []

/-- One configured source in a run: its identifier, the environment's
per-attempt outcome, and the raw records it yields when an attempt
succeeds. -/
structure SourceRun where
  sourceId : String
  outcomes : Nat → Bool
  payload : List RawRecord

/-- Result of running one source: its retry trace and the records it
contributed (none when retries were exhausted). -/
structure SourceOutcome where
  sourceId : String
  trace : RetryTrace
  records : List RawRecord
  deriving Repr

/-- Modelled from the spec: run one source adapter under the Backoff Policy;
a source whose retries are exhausted is marked failed for the run and
contributes no records. -/
def runSource (cap : Nat) (s : SourceRun) : SourceOutcome :=
  { sourceId := s.sourceId,
    trace := runWithRetry cap s.outcomes,
    records := if (runWithRetry cap s.outcomes).succeeded then s.payload else [] }

/-- Terminal status of a collection run. -/
inductive RunStatus
  | succeeded
  | mixed
  | failed
  deriving DecidableEq, Repr

/-- Outcome of the run's commit step. -/
inductive RunOutcome
  | committed
  | aborted
  deriving DecidableEq, Repr

/-- Modelled from the spec: the Run Coordinator's status function.  All
sources succeeded gives succeeded; some but not all gives the partly-failed
terminal status (spec's partial); none succeeded gives failed. -/
def runStatusOf (outs : List SourceOutcome) : RunStatus :=
  if outs.all fun o => o.trace.succeeded then RunStatus.succeeded
  else if outs.any fun o => o.trace.succeeded then RunStatus.mixed
  else RunStatus.failed

/-- CollectionRun record: identifier, scope, per-source status, aggregate
error list, terminal status, commit outcome. -/
structure CollectionRun where
  runId : Nat
  scope : String
  sourceStatuses : List (String × Bool)
  errors : List String
  status : RunStatus
  outcome : RunOutcome
  deriving DecidableEq, Repr

/-- Canonical Store content: committed record sets keyed by run id,
append-only. -/
abbrev Store := List (Nat × List CanonicalRecord)

/-- Configuration of a run: validation fraction, reconciliation
configuration, backoff delay cap. -/
structure RunConfig where
  frac : ℚ
  rc : ReconcileConfig
  cap : Nat

/-- Outcomes of all sources of a run. -/
def runOutcomes (cap : Nat) (sources : List SourceRun) : List SourceOutcome :=
  sources.map (runSource cap)

/-- Raw records collected across all sources of a run. -/
def collectedRaw (cap : Nat) (sources : List SourceRun) : List RawRecord :=
  ((runOutcomes cap sources).map fun o => o.records).flatten

/-- Raw records of exactly the sources that finished successfully. -/
def succeededRawRecords (cap : Nat) (sources : List SourceRun) : List RawRecord :=
  (((runOutcomes cap sources).filter fun o => o.trace.succeeded).map
    fun o => o.records).flatten

/-- Aggregate error list of a run: one entry per source whose retries were
exhausted. -/
def runErrors (cap : Nat) (sources : List SourceRun) : List String :=
  ((runOutcomes cap sources).filter fun o => !o.trace.succeeded).map
    fun o => o.sourceId ++ ": retries exhausted"

/-- Modelled from the spec: the Run Coordinator (not implemented in the
repository).  It runs every source under the Backoff Policy, aggregates
per-source errors into the run record, validates and reconciles the
collected records, and commits them as one atomic append to the Canonical
Store; a failed run commits nothing. -/
def coordinate (cfg : RunConfig) (runId : Nat) (scope : String)
    (sources : List SourceRun) (store : Store) : CollectionRun × Store :=
  ({ runId := runId, scope := scope,
     sourceStatuses := (runOutcomes cfg.cap sources).map
       fun o => (o.sourceId, o.trace.succeeded),
     errors := runErrors cfg.cap sources,
     status := runStatusOf (runOutcomes cfg.cap sources),
     outcome :=
       if runStatusOf (runOutcomes cfg.cap sources) = RunStatus.failed then
         RunOutcome.aborted
       else RunOutcome.committed },
   if runStatusOf (runOutcomes cfg.cap sources) = RunStatus.failed then store
   else
     store ++ [(runId,
       reconcileAll cfg.rc (validOutcomes cfg.frac (collectedRaw cfg.cap sources)))])

/-- State of the whole system as seen by the trigger and query interfaces. -/
structure SystemState where
  nextRunId : Nat
  runs : List (Nat × CollectionRun)
  store : Store

/-- Errors the trigger interface could in principle raise; the design says
partial data issues never surface here. -/
inductive RunError
  | internal (msg : String)
  deriving DecidableEq, Repr

/-- Modelled from the spec: the trigger interface's startRun (not implemented
in the repository).  Per-record and per-source errors are aggregated into
the CollectionRun rather than raised: the call returns a run id and the
updated state. -/
def startRun (cfg : RunConfig) (scope : String) (sources : List SourceRun)
    (st : SystemState) : Except RunError (Nat × SystemState) :=
  Except.ok (st.nextRunId,
    { nextRunId := st.nextRunId + 1,
      runs := st.runs ++
        [(st.nextRunId, (coordinate cfg st.nextRunId scope sources st.store).1)],
      store := (coordinate cfg st.nextRunId scope sources st.store).2 })

/-- Modelled from the spec: the query interface's getRunStatus (not
implemented in the repository); read-only lookup of a run's record. -/
def getRunStatus (runId : Nat) (st : SystemState) : Option CollectionRun :=
  (st.runs.find? fun p => p.1 == runId).map fun p => p.2

/-- A well-formed system state: every recorded run id is below the next one
to be handed out. -/
def WellFormedState (st : SystemState) : Prop :=
  ∀ p ∈ st.runs, p.1 < st.nextRunId

/-- One row of the Dashboard's topPlayers mock dataset
(src/unnamed/part_002, lines 15-21). -/
structure PlayerRow where
  name : String
  team : String
  ppg : ℚ
  rpg : ℚ
  apg : ℚ
  efg : ℚ
  deriving DecidableEq, Repr

/-- One row of the seasonStats dataset (part_002 lines 22-28). -/
structure SeasonStat where
  season : String
  avgPpg : ℚ
  avgRpg : ℚ
  avgApg : ℚ
  avgEfg : ℚ
  deriving DecidableEq, Repr

/-- One slice of the positionDistribution dataset (part_002 lines 29-35). -/
structure PositionSlice where
  position : String
  count : Nat
  percentage : ℚ
  deriving DecidableEq, Repr

/-- One row of the teamPerformance dataset (part_002 lines 36-42). -/
structure TeamPerf where
  team : String
  wins : Nat
  losses : Nat
  winRate : ℚ
  deriving DecidableEq, Repr

/-- The dashboard dataset returned by the Dashboard page's query. -/
structure DashboardData where
  topPlayers : List PlayerRow
  seasonStats : List SeasonStat
  positionDistribution : List PositionSlice
  teamPerformance : List TeamPerf
  deriving DecidableEq, Repr

/-- Query of the Dashboard page (src/unnamed/part_002, lines 12-44): the
fetch function reads no component state, so the returned dataset does not
depend on the selected season; the selector argument is taken here to state
that independence. -/
def dashboardQuery (_selectedSeason : String) : DashboardData :=
  { topPlayers :=
      [{ name := "Nikola Jokić", team := "DEN", ppg := 28.2, rpg := 12.8,
         apg := 8.9, efg := 0.632 },
       { name := "Joel Embiid", team := "PHI", ppg := 35.1, rpg := 11.1,
         apg := 5.9, efg := 0.598 },
       { name := "Luka Dončić", team := "DAL", ppg := 33.9, rpg := 8.2,
         apg := 9.8, efg := 0.587 },
       { name := "Giannis Antetokounmpo", team := "MIL", ppg := 30.8,
         rpg := 11.5, apg := 6.4, efg := 0.612 },
       { name := "Kevin Durant", team := "PHX", ppg := 29.9, rpg := 6.7,
         apg := 5.9, efg := 0.601 }],
    seasonStats :=
      [{ season := "2020", avgPpg := 22.1, avgRpg := 8.9, avgApg := 5.2,
         avgEfg := 0.534 },
       { season := "2021", avgPpg := 22.8, avgRpg := 9.1, avgApg := 5.4,
         avgEfg := 0.541 },
       { season := "2022", avgPpg := 23.2, avgRpg := 9.3, avgApg := 5.6,
         avgEfg := 0.548 },
       { season := "2023", avgPpg := 23.8, avgRpg := 9.5, avgApg := 5.8,
         avgEfg := 0.552 },
       { season := "2024", avgPpg := 24.1, avgRpg := 9.7, avgApg := 6.0,
         avgEfg := 0.558 }],
    positionDistribution :=
      [{ position := "PG", count := 120, percentage := 26.7 },
       { position := "SG", count := 115, percentage := 25.6 },
       { position := "SF", count := 95, percentage := 21.1 },
       { position := "PF", count := 80, percentage := 17.8 },
       { position := "C", count := 40, percentage := 8.9 }],
    teamPerformance :=
      [{ team := "BOS", wins := 35, losses := 12, winRate := 0.745 },
       { team := "MIL", wins := 33, losses := 14, winRate := 0.702 },
       { team := "PHI", wins := 32, losses := 15, winRate := 0.681 },
       { team := "DEN", wins := 31, losses := 16, winRate := 0.660 },
       { team := "LAC", wins := 30, losses := 17, winRate := 0.638 }] }

/-- One rendered row of the Top Players table (part_002 lines 284-296):
rank, player cells, and the eFG column shown scaled by 100. -/
structure TableRow where
  rank : Nat
  player : String
  team : String
  ppg : ℚ
  rpg : ℚ
  apg : ℚ
  efgPct : ℚ
  deriving DecidableEq, Repr

/-- Render one table row from a player at a given zero-based index. -/
def renderRow (i : Nat) (p : PlayerRow) : TableRow :=
  { rank := i + 1, player := p.name, team := p.team, ppg := p.ppg,
    rpg := p.rpg, apg := p.apg, efgPct := p.efg * 100 }

/-- Row rendering with a running index, as the tbody's indexed map does. -/
def renderRows (i : Nat) : List PlayerRow → List TableRow
  | [] => []
  | p :: ps => renderRow i p :: renderRows (i + 1) ps

/-- Top Players table body (src/unnamed/part_002, lines 284-296): an indexed
map over topPlayers.  The selected metric does not occur in the tbody, so it
is taken as an ignored argument to state that independence. -/
def renderTopPlayersTable (_selectedMetric : String) (d : DashboardData) :
    List TableRow :=
  renderRows 0 d.topPlayers

/-- Toast notifications emitted by the DataCollection page. -/
inductive ToastKind
  | loading
  | success
  | failure
  deriving DecidableEq, Repr

/-- Observable trace of one invocation of handleStartCollection: the toasts
emitted in order, whether the handler re-threw to its caller, and the value
of isCollecting after the finally block ran. -/
structure HandlerTrace where
  toasts : List ToastKind
  threw : Bool
  finalIsCollecting : Bool
  deriving DecidableEq, Repr

/-- Shallow embedding of handleStartCollection
(src/src/pages/DataCollection.js, lines 104-118).  The handler sets
isCollecting, emits the loading toast, awaits the body inside try, emits the
success toast on resolution and the failure toast in the catch branch, and
resets isCollecting in the finally block; no branch re-throws. -/
def handleStartCollection (body : Except String Unit) : HandlerTrace :=
  match body with
  | Except.ok _ =>
      { toasts := [ToastKind.loading, ToastKind.success], threw := false,
        finalIsCollecting := false }
  | Except.error _ =>
      { toasts := [ToastKind.loading, ToastKind.failure], threw := false,
        finalIsCollecting := false }

/-- The body awaited by handleStartCollection (DataCollection.js line 110):
a setTimeout promise, which always resolves. -/
def collectionBody : Except String Unit := Except.ok ()

/-- The start button's disabled attribute (DataCollection.js line 284) is
exactly the isCollecting flag. -/
def startButtonDisabled (isCollecting : Bool) : Bool := isCollecting

/-- Clicking the start button: a click on a disabled button dispatches
nothing, otherwise the handler runs on the actual body. -/
def clickStart (isCollecting : Bool) : Option HandlerTrace :=
  if startButtonDisabled isCollecting then none
  else some (handleStartCollection collectionBody)

/-- Attempt environment that fails the first three attempts and succeeds on
the fourth: the scenario of the backoff property. -/
def failsThrice : Nat → Bool := fun n => decide (3 ≤ n)

/-- Attempt environment in which every attempt fails. -/
def alwaysFail : Nat → Bool := fun _ => false

/-- Attempt environment in which every attempt succeeds. -/
def alwaysOk : Nat → Bool := fun _ => true

/-- Sample raw record with every required field present and in range, shaped
after the sample data structure of the scraping specification. -/
def recGood : RawRecord :=
  { sourceId := "basketball_reference", rawName := "Nikola Jokić",
    rawTeam := "DEN", season := "2024",
    fields := [("player_name", FieldValue.str "Nikola Jokić"),
               ("team", FieldValue.str "DEN"),
               ("ppg", FieldValue.num 28.2),
               ("rpg", FieldValue.num 12.8),
               ("apg", FieldValue.num 8.9)],
    fetchedAt := 0 }

/-- Sample raw record from a second source for the same player-season. -/
def recGood2 : RawRecord :=
  { sourceId := "nba_com", rawName := "Nikola Jokić",
    rawTeam := "DEN", season := "2024",
    fields := [("player_name", FieldValue.str "Nikola Jokić"),
               ("team", FieldValue.str "DEN"),
               ("ppg", FieldValue.num 27.9),
               ("rpg", FieldValue.num 12.5),
               ("apg", FieldValue.num 9.1)],
    fetchedAt := 0 }

/-- Sample raw record with the required field ppg missing. -/
def recMissing : RawRecord :=
  { sourceId := "kaggle", rawName := "Joel Embiid",
    rawTeam := "PHI", season := "2024",
    fields := [("player_name", FieldValue.str "Joel Embiid"),
               ("team", FieldValue.str "PHI"),
               ("rpg", FieldValue.num 11.1),
               ("apg", FieldValue.num 5.9)],
    fetchedAt := 0 }

/-- Sample raw record whose ppg value 55 lies outside the documented
plausible range of VALIDATION_RULES (ppg bounded by 50). -/
def recOutOfRange : RawRecord :=
  { sourceId := "basketball_reference", rawName := "Joel Embiid",
    rawTeam := "PHI", season := "2024",
    fields := [("player_name", FieldValue.str "Joel Embiid"),
               ("team", FieldValue.str "PHI"),
               ("ppg", FieldValue.num 55),
               ("rpg", FieldValue.num 11.1),
               ("apg", FieldValue.num 5.9)],
    fetchedAt := 0 }

/-- Example reconciliation configuration: the three documented sources in
precedence order and a tolerance of one half. -/
def exRC : ReconcileConfig :=
  { precedence := ["nba_com", "basketball_reference", "kaggle"],
    tolerance := 1 / 2 }

/-- Example run configuration. -/
def exCfg : RunConfig := { frac := 1 / 2, rc := exRC, cap := 30 }

/-- Example validated input set for the determinism witness. -/
def exVO : List (RawRecord × RawRecord) := validOutcomes (1 / 2) [recGood, recGood2]

/-- Example source whose every attempt fails. -/
def srcFailing : SourceRun :=
  { sourceId := "nba_com", outcomes := alwaysFail, payload := [recGood2] }

/-- Example source whose attempts succeed. -/
def srcHealthy : SourceRun :=
  { sourceId := "basketball_reference", outcomes := alwaysOk, payload := [recGood] }

/-- Example initial system state. -/
def exState : SystemState := { nextRunId := 0, runs := [], store := [] }

lemma validate_missing_rejected (frac : ℚ) (r : RawRecord) (f : String)
    (hf : f ∈ requiredFields) (hm : fieldMissing r f = true) :
    (validate frac r).status = VStatus.rejected := by
  have hmem : f ∈ missingRequired r := List.mem_filter.mpr ⟨hf, hm⟩
  have hne : (missingRequired r).isEmpty = false := by
    rw [List.isEmpty_eq_false]
    exact List.ne_nil_of_mem hmem
  simp [validate, hne]

lemma foldl_choice_mem {α : Type} (f : α → α → α)
    (hf : ∀ a b, f a b = a ∨ f a b = b) :
    ∀ (l : List α) (a : α), l.foldl f a = a ∨ l.foldl f a ∈ l := by
  intro l
  induction l with
  | nil => intro a; exact Or.inl rfl
  | cons x xs ih =>
      intro a
      rw [List.foldl_cons]
      rcases ih (f a x) with h | h
      · rcases hf a x with h2 | h2
        · exact Or.inl (h.trans h2)
        · exact Or.inr (by rw [h, h2]; exact List.mem_cons_self x xs)
      · exact Or.inr (List.mem_cons_of_mem x h)

lemma pick_step_choice (med : ℚ) (a b : RawRecord × FieldValue) :
    (if distTo med b.2 < distTo med a.2 then b else a) = a ∨
    (if distTo med b.2 < distTo med a.2 then b else a) = b := by
  by_cases hd : distTo med b.2 < distTo med a.2
  · exact Or.inr (if_pos hd)
  · exact Or.inl (if_neg hd)

lemma pickClosest_mem {med : ℚ} {l : List (RawRecord × FieldValue)}
    {c : RawRecord × FieldValue} (h : pickClosest med l = some c) : c ∈ l := by
  cases l with
  | nil => simp [pickClosest] at h
  | cons x xs =>
      have hc : c = xs.foldl
          (fun best y => if distTo med y.2 < distTo med best.2 then y else best) x := by
        simpa [pickClosest] using h.symm
      rcases foldl_choice_mem
          (fun best y => if distTo med y.2 < distTo med best.2 then y else best)
          (fun a b => pick_step_choice med a b) xs x with h2 | h2
      · rw [hc, h2]; exact List.mem_cons_self x xs
      · rw [hc]; exact List.mem_cons_of_mem x h2

lemma selectValue_contributor_mem {prec : List String} {tol : ℚ}
    {cands : List (RawRecord × FieldValue)} {ch : FieldChoice}
    (h : selectValue prec tol cands = some ch) :
    ch.contributor ∈ cands.map fun x => x.1 := by
  unfold selectValue at h
  cases hp : pickClosest (medianQ (numValsOf cands)) (topRanked prec cands) with
  | none => rw [hp] at h; cases h
  | some c =>
      rw [hp] at h
      have hc : ch.contributor = c.1 := by
        cases h; rfl
      have hmem : c ∈ topRanked prec cands := pickClosest_mem hp
      have : c ∈ cands := List.mem_of_mem_filter hmem
      rw [hc]
      exact List.mem_map_of_mem _ this

lemma candidatesFor_fst_mem {group : List (RawRecord × RawRecord)} {f : String}
    {x : RawRecord × FieldValue} (hx : x ∈ candidatesFor group f) :
    x.1 ∈ group.map fun p => p.1 := by
  rcases List.mem_filterMap.mp hx with ⟨p, hp, hmap⟩
  rcases Option.map_eq_some'.mp hmap with ⟨v, _, hxv⟩
  rw [← hxv]
  exact List.mem_map_of_mem _ hp

lemma mergeGroup_contributor_mem {prec : List String} {tol : ℚ} {k : EntityKey}
    {group : List (RawRecord × RawRecord)} {fc : String × FieldChoice}
    (h : fc ∈ (mergeGroup prec tol k group).fields) :
    fc.2.contributor ∈ group.map fun p => p.1 := by
  rcases List.mem_filterMap.mp h with ⟨f, _, hmap⟩
  rcases Option.map_eq_some'.mp hmap with ⟨ch, hsel, hfc⟩
  have hmem := selectValue_contributor_mem hsel
  rcases List.mem_map.mp hmem with ⟨x, hx, hx1⟩
  have : fc.2 = ch := by rw [← hfc]
  rw [this, ← hx1]
  exact candidatesFor_fst_mem hx

lemma validOutcomes_fst_not_rejected {frac : ℚ} {rs : List RawRecord}
    {p : RawRecord × RawRecord} (hp : p ∈ validOutcomes frac rs) :
    (validate frac p.1).status ≠ VStatus.rejected := by
  rcases List.mem_filterMap.mp hp with ⟨x, _, heq⟩
  by_cases hr : (validate frac x).status = VStatus.rejected
  · rw [if_pos hr] at heq; cases heq
  · rw [if_neg hr] at heq
    have := Option.some.inj heq
    rw [← this]
    exact hr

lemma reconcileAll_contributor_valid {cfg : ReconcileConfig} {frac : ℚ}
    {rs : List RawRecord} {cr : CanonicalRecord} {fc : String × FieldChoice}
    (hcr : cr ∈ reconcileAll cfg (validOutcomes frac rs))
    (hfc : fc ∈ cr.fields) :
    (validate frac fc.2.contributor).status ≠ VStatus.rejected := by
  rcases List.mem_map.mp hcr with ⟨k, _, hk⟩
  rw [← hk] at hfc
  have hmem := mergeGroup_contributor_mem hfc
  rcases List.mem_map.mp hmem with ⟨p, hp, hp1⟩
  have hpv : p ∈ validOutcomes frac rs := List.mem_of_mem_filter hp
  rw [← hp1]
  exact validOutcomes_fst_not_rejected hpv

lemma retryLoopAux_succ (cap : Nat) (outcomes : Nat → Bool) (i n : Nat)
    (w : List Nat) (h : outcomes i = false) :
    retryLoopAux cap outcomes i (n + 1) w =
      retryLoopAux cap outcomes (i + 1) n (nextRetryDelay cap i :: w) := by
  simp [retryLoopAux, h]

lemma retryLoopAux_zero (cap : Nat) (outcomes : Nat → Bool) (i : Nat)
    (w : List Nat) :
    retryLoopAux cap outcomes i 0 w =
      { attempts := i + 1, waits := w.reverse, succeeded := outcomes i } := by
  cases h : outcomes i <;> simp [retryLoopAux, h]

lemma retryLoopAux_all_fail (cap : Nat) (outcomes : Nat → Bool)
    (h : ∀ k, outcomes k = false) :
    ∀ (n i : Nat) (w : List Nat),
      (retryLoopAux cap outcomes i n w).succeeded = false := by
  intro n
  induction n with
  | zero => intro i w; simp [retryLoopAux, h i]
  | succ m ih =>
      intro i w
      rw [retryLoopAux_succ cap outcomes i m w (h i)]
      exact ih (i + 1) _

lemma retryLoopAux_attempts_le (cap : Nat) (outcomes : Nat → Bool) :
    ∀ (n i : Nat) (w : List Nat),
      (retryLoopAux cap outcomes i n w).attempts ≤ i + n + 1 := by
  intro n
  induction n with
  | zero => intro i w; cases h : outcomes i <;> simp [retryLoopAux, h]
  | succ m ih =>
      intro i w
      cases h : outcomes i
      · rw [retryLoopAux_succ cap outcomes i m w h]
        have := ih (i + 1) (nextRetryDelay cap i :: w)
        omega
      · simp [retryLoopAux, h]

lemma runWithRetry_attempts_le (cap : Nat) (outcomes : Nat → Bool) :
    (runWithRetry cap outcomes).attempts ≤ 1 + maxRetries := by
  have := retryLoopAux_attempts_le cap outcomes maxRetries 0 []
  unfold runWithRetry
  omega

lemma runWithRetry_all_fail (cap : Nat) (outcomes : Nat → Bool)
    (h : ∀ k, outcomes k = false) :
    (runWithRetry cap outcomes).succeeded = false :=
  retryLoopAux_all_fail cap outcomes h maxRetries 0 []

lemma retry_waits_three (cap : Nat) (outcomes : Nat → Bool)
    (h0 : outcomes 0 = false) (h1 : outcomes 1 = false)
    (h2 : outcomes 2 = false) :
    (runWithRetry cap outcomes).waits =
      [nextRetryDelay cap 0, nextRetryDelay cap 1, nextRetryDelay cap 2] := by
  have e : runWithRetry cap outcomes =
      retryLoopAux cap outcomes 3 0
        [nextRetryDelay cap 2, nextRetryDelay cap 1, nextRetryDelay cap 0] := by
    rw [runWithRetry]
    rw [show maxRetries = 2 + 1 from rfl,
      retryLoopAux_succ cap outcomes 0 2 [] h0,
      show (2 : Nat) = 1 + 1 from rfl,
      retryLoopAux_succ cap outcomes 1 1 _ h1,
      show (1 : Nat) = 0 + 1 from rfl,
      retryLoopAux_succ cap outcomes 2 0 _ h2]
  rw [e, retryLoopAux_zero]
  simp

lemma collectedRaw_eq (cap : Nat) (sources : List SourceRun) :
    collectedRaw cap sources = succeededRawRecords cap sources := by
  unfold collectedRaw succeededRawRecords runOutcomes
  induction sources with
  | nil => rfl
  | cons s ss ih =>
      cases h : (runWithRetry cap s.outcomes).succeeded
      · simp only [List.map_map] at ih
        simp [runSource, h, ih]
      · simp only [List.map_map] at ih
        simp [runSource, h, ih]

lemma find?_append_none {α : Type} (p : α → Bool) (l₁ l₂ : List α)
    (h : ∀ x ∈ l₁, p x = false) :
    (l₁ ++ l₂).find? p = l₂.find? p := by
  induction l₁ with
  | nil => rfl
  | cons x xs ih =>
      rw [List.cons_append, List.find?_cons_of_neg _ (by simp [h x (List.mem_cons_self x xs)])]
      exact ih fun y hy => h y (List.mem_cons_of_mem x hy)

lemma contains_of_mem {l : List String} {a : String} (h : a ∈ l) :
    l.contains a = true := by
  simpa using h

lemma not_contains_of_not_mem {l : List String} {a : String} (h : a ∉ l) :
    l.contains a = false := by
  simpa using h

lemma getField_clamp_none (r : RawRecord) (bad : List String) (f : String)
    (hf : f ∈ bad) : getField (clampToNull r bad) f = none := by
  unfold getField clampToNull
  rw [List.find?_eq_none.mpr]
  · rfl
  · intro x hx hpx
    have hx1 : x.1 = f := eq_of_beq hpx
    have hkeep := (List.mem_filter.mp hx).2
    rw [hx1] at hkeep
    rw [contains_of_mem hf] at hkeep
    cases hkeep

lemma find?_filter_of_pred {α : Type} (q keep : α → Bool)
    (h : ∀ x, q x = true → keep x = true) (l : List α) :
    (l.filter keep).find? q = l.find? q := by
  induction l with
  | nil => rfl
  | cons x xs ih =>
      cases hk : keep x
      · have hq : q x = false := by
          cases hqx : q x
          · rfl
          · exact absurd (h x hqx) (by simp [hk])
        rw [List.filter_cons_of_neg (by simp [hk]),
          List.find?_cons_of_neg xs (by simp [hq]), ih]
      · rw [List.filter_cons_of_pos hk]
        cases hqx : q x
        · rw [List.find?_cons_of_neg (xs.filter keep) (by simp [hqx]),
            List.find?_cons_of_neg xs (by simp [hqx]), ih]
        · rw [List.find?_cons_of_pos (xs.filter keep) hqx,
            List.find?_cons_of_pos xs hqx]

lemma getField_clamp_of_not_mem (r : RawRecord) (bad : List String)
    (g : String) (hg : g ∉ bad) :
    getField (clampToNull r bad) g = getField r g := by
  unfold getField clampToNull
  rw [find?_filter_of_pred _ _ ?_]
  intro x hx
  have hx1 : x.1 = g := eq_of_beq hx
  rw [hx1, not_contains_of_not_mem hg]
  rfl

lemma renderRows_get? :
    ∀ (l : List PlayerRow) (i j : Nat),
      (renderRows i l).get? j = (l.get? j).map (renderRow (i + j)) := by
  intro l
  induction l with
  | nil => intro i j; cases j <;> rfl
  | cons p ps ih =>
      intro i j
      cases j with
      | zero => rfl
      | succ k =>
          have e : i + 1 + k = i + (k + 1) := by omega
          calc (renderRows i (p :: ps)).get? (k + 1)
              = (renderRows (i + 1) ps).get? k := rfl
            _ = (ps.get? k).map (renderRow (i + 1 + k)) := ih (i + 1) k
            _ = ((p :: ps).get? (k + 1)).map (renderRow (i + (k + 1))) := by rw [e]; rfl

/-- C1: reconciliation is deterministic.  The Reconciler and EntityKey
resolution are modelled from the specification as pure functions, so running
the merge twice on the same validated input set yields identical
CanonicalRecords. -/
theorem reconcile_deterministic :
    ∀ (cfg : ReconcileConfig) (v w : List (RawRecord × RawRecord)),
      v = w →
      reconcileAll cfg v = reconcileAll cfg w ∧
      ∀ r s : RawRecord, r = s → resolveKey r = resolveKey s := by
  intro cfg v w hvw
  exact ⟨by rw [hvw], fun r s hrs => by rw [hrs]⟩

/-- Witness for C1 at a concrete two-source validated input set. -/
theorem reconcile_deterministic_witness :
    exVO = exVO ∧ reconcileAll exRC exVO = reconcileAll exRC exVO :=
  ⟨rfl, (reconcile_deterministic exRC exVO exVO rfl).1⟩

/-- C8: the Dashboard's displayed dataset is independent of the selected
season: the query ignores the season selector, so any two selector values
produce the same topPlayers, seasonStats, positionDistribution and
teamPerformance data. -/
theorem dashboard_season_noninterference :
    ∀ s₁ s₂ : String,
      dashboardQuery s₁ = dashboardQuery s₂ ∧
      (dashboardQuery s₁).topPlayers = (dashboardQuery s₂).topPlayers ∧
      (dashboardQuery s₁).seasonStats = (dashboardQuery s₂).seasonStats ∧
      (dashboardQuery s₁).positionDistribution =
        (dashboardQuery s₂).positionDistribution ∧
      (dashboardQuery s₁).teamPerformance = (dashboardQuery s₂).teamPerformance :=
  fun _ _ => ⟨rfl, rfl, rfl, rfl, rfl⟩

/-- C9: in the data-collection start handler the error branch is unreachable
(the awaited body is a timeout promise that always resolves), every
invocation reports success and never re-throws, isCollecting is reset to
false by the finally block, and while isCollecting is true the start button
is disabled so a click dispatches nothing. -/
theorem handler_always_success :
    (handleStartCollection collectionBody).toasts =
      [ToastKind.loading, ToastKind.success] ∧
    (∀ t ∈ (handleStartCollection collectionBody).toasts,
      t ≠ ToastKind.failure) ∧
    (∀ b, (handleStartCollection b).threw = false) ∧
    (∀ b, (handleStartCollection b).finalIsCollecting = false) ∧
    (∀ c, startButtonDisabled c = c) ∧
    clickStart true = none := by
  refine ⟨rfl, ?_, ?_, ?_, fun _ => rfl, rfl⟩
  · intro t ht
    have : t = ToastKind.loading ∨ t = ToastKind.success := by
      simpa [handleStartCollection, collectionBody] using ht
    rcases this with rfl | rfl <;> decide
  · intro b; cases b <;> rfl
  · intro b; cases b <;> rfl

/-- C10: the Top Players table renders players in the fixed order of the
topPlayers array with rank equal to index plus one, and the selected metric
never changes the rendered rows. -/
theorem top_players_table_fixed_order :
    ∀ (m : String) (d : DashboardData) (i : Nat) (p : PlayerRow),
      d.topPlayers.get? i = some p →
      ((renderTopPlayersTable m d).get? i = some
        { rank := i + 1, player := p.name, team := p.team, ppg := p.ppg,
          rpg := p.rpg, apg := p.apg, efgPct := p.efg * 100 } ∧
      ∀ m' : String, renderTopPlayersTable m d = renderTopPlayersTable m' d) := by
  intro m d i p hp
  constructor
  · rw [renderTopPlayersTable, renderRows_get?, hp]
    simp [renderRow, Nat.zero_add]
  · intro _; rfl

/-- Witness for C10 at row zero of the Dashboard dataset. -/
theorem top_players_table_fixed_order_witness :
    (dashboardQuery "2024").topPlayers.get? 0 = some
      { name := "Nikola Jokić", team := "DEN", ppg := 28.2, rpg := 12.8,
        apg := 8.9, efg := 0.632 } ∧
    ((renderTopPlayersTable "ppg" (dashboardQuery "2024")).get? 0 = some
      { rank := 0 + 1, player := "Nikola Jokić", team := "DEN", ppg := 28.2,
        rpg := 12.8, apg := 8.9, efgPct := (0.632 : ℚ) * 100 } ∧
    ∀ m' : String, renderTopPlayersTable "ppg" (dashboardQuery "2024") =
      renderTopPlayersTable m' (dashboardQuery "2024")) :=
  ⟨rfl, top_players_table_fixed_order "ppg" (dashboardQuery "2024") 0 _ rfl⟩

/-- C3 counterexample: the scenario the claim itself describes — a source
failing three consecutive times with waits of 5s, 10s and 20s between
attempts — necessarily involves a fourth attempt under the configured
max_retries = 3 (retries after the initial attempt), refuting "at most 3
attempts are made"; moreover that fourth attempt can succeed, refuting
"marked failed if a 4th attempt would be required". -/
theorem backoff_claim_counterexample :
    (runWithRetry 30 failsThrice).waits = [5, 10, 20] ∧
    (runWithRetry 30 failsThrice).succeeded = true ∧
    (runWithRetry 30 failsThrice).attempts = 4 ∧
    ¬ (runWithRetry 30 failsThrice).attempts ≤ 3 := by decide

/-- C3 amended: nextRetryDelay(n) is min(base·factor^n, cap) with base 5s
and factor 2; at most 3 retries are made after the initial attempt (at most
4 attempts in total); a source failing 3 consecutive times has waited 5s,
10s, 20s between attempts; a source is marked failed for the run when a
fourth retry would be required (four consecutive failures), without failing
the whole run when another source succeeds. -/
theorem backoff_amended :
    ∀ (cap : Nat) (outcomes : Nat → Bool), 20 ≤ cap →
      (∀ n, nextRetryDelay cap n =
        min (retryDelayBase * backoffFactor ^ n) cap) ∧
      (runWithRetry cap outcomes).attempts ≤ 1 + maxRetries ∧
      (outcomes 0 = false → outcomes 1 = false → outcomes 2 = false →
        (runWithRetry cap outcomes).waits = [5, 10, 20]) ∧
      ((∀ k, outcomes k = false) →
        (runWithRetry cap outcomes).succeeded = false) ∧
      (∀ s t : SourceRun, (∀ k, s.outcomes k = false) →
        (runWithRetry cap t.outcomes).succeeded = true →
        runStatusOf (runOutcomes cap [s, t]) = RunStatus.mixed) := by
  intro cap outcomes hcap
  refine ⟨fun _ => rfl, runWithRetry_attempts_le cap outcomes, ?_,
    runWithRetry_all_fail cap outcomes, ?_⟩
  · intro h0 h1 h2
    rw [retry_waits_three cap outcomes h0 h1 h2]
    simp [nextRetryDelay, retryDelayBase, backoffFactor]
    omega
  · intro s t hs ht
    have hsf : (runWithRetry cap s.outcomes).succeeded = false :=
      runWithRetry_all_fail cap s.outcomes hs
    simp [runStatusOf, runOutcomes, runSource, hsf, ht]

/-- Witness for C3's amended claim at cap 30 and the fail-three-times
environment. -/
theorem backoff_amended_witness :
    20 ≤ 30 ∧
    ((∀ n, nextRetryDelay 30 n =
        min (retryDelayBase * backoffFactor ^ n) 30) ∧
      (runWithRetry 30 failsThrice).attempts ≤ 1 + maxRetries ∧
      (failsThrice 0 = false → failsThrice 1 = false → failsThrice 2 = false →
        (runWithRetry 30 failsThrice).waits = [5, 10, 20]) ∧
      ((∀ k, failsThrice k = false) →
        (runWithRetry 30 failsThrice).succeeded = false) ∧
      (∀ s t : SourceRun, (∀ k, s.outcomes k = false) →
        (runWithRetry 30 t.outcomes).succeeded = true →
        runStatusOf (runOutcomes 30 [s, t]) = RunStatus.mixed)) :=
  ⟨by decide, backoff_amended 30 failsThrice (by decide)⟩

/-- C4: a run in which all sources fail reaches terminal status failed, its
commit is aborted, and the Canonical Store content is unchanged. -/
theorem all_sources_fail_no_commit :
    ∀ (cfg : RunConfig) (runId : Nat) (scope : String)
      (sources : List SourceRun) (store : Store),
      sources ≠ [] →
      (∀ s ∈ sources, ∀ k, s.outcomes k = false) →
      (coordinate cfg runId scope sources store).1.status = RunStatus.failed ∧
      (coordinate cfg runId scope sources store).1.outcome = RunOutcome.aborted ∧
      (coordinate cfg runId scope sources store).2 = store := by
  intro cfg runId scope sources store hne hall
  have hfail : ∀ o ∈ runOutcomes cfg.cap sources, o.trace.succeeded = false := by
    intro o ho
    rcases List.mem_map.mp ho with ⟨s, hs, rfl⟩
    simpa [runSource] using
      runWithRetry_all_fail cfg.cap s.outcomes (hall s hs)
  have h1 : ((runOutcomes cfg.cap sources).all fun o => o.trace.succeeded)
      = false := by
    cases hh : (runOutcomes cfg.cap sources).all fun o => o.trace.succeeded
    · rfl
    · exfalso
      obtain ⟨s, hs⟩ : ∃ s, s ∈ sources := by
        cases sources with
        | nil => exact absurd rfl hne
        | cons a l => exact ⟨a, List.mem_cons_self a l⟩
      have hmem : runSource cfg.cap s ∈ runOutcomes cfg.cap sources :=
        List.mem_map_of_mem _ hs
      have htrue := List.all_eq_true.mp hh _ hmem
      rw [hfail _ hmem] at htrue
      cases htrue
  have h2 : ((runOutcomes cfg.cap sources).any fun o => o.trace.succeeded)
      = false := by
    cases hh : (runOutcomes cfg.cap sources).any fun o => o.trace.succeeded
    · rfl
    · exfalso
      rcases List.any_eq_true.mp hh with ⟨o, ho, hsucc⟩
      rw [hfail o ho] at hsucc
      cases hsucc
  have hst : runStatusOf (runOutcomes cfg.cap sources) = RunStatus.failed := by
    simp [runStatusOf, h1, h2]
  refine ⟨?_, ?_, ?_⟩ <;> simp [coordinate, hst]

/-- Witness for C4: one always-failing source against an empty store. -/
theorem all_sources_fail_no_commit_witness :
    ([srcFailing] ≠ ([] : List SourceRun) ∧
      ∀ s ∈ [srcFailing], ∀ k, s.outcomes k = false) ∧
    ((coordinate exCfg 0 "2024" [srcFailing] []).1.status = RunStatus.failed ∧
      (coordinate exCfg 0 "2024" [srcFailing] []).1.outcome = RunOutcome.aborted ∧
      (coordinate exCfg 0 "2024" [srcFailing] []).2 = []) := by
  have hne : [srcFailing] ≠ ([] : List SourceRun) := by
    intro h; cases h
  have hall : ∀ s ∈ [srcFailing], ∀ k, s.outcomes k = false := by
    intro s hs k
    rcases List.mem_cons.mp hs with rfl | h
    · rfl
    · cases h
  exact ⟨⟨hne, hall⟩,
    all_sources_fail_no_commit exCfg 0 "2024" [srcFailing] [] hne hall⟩

/-- C5: a run in which at least one source exhausts its retries and at least
one other source finishes successfully reaches the partly-failed terminal
status, its commit is still attempted, and the committed CanonicalRecords
are reconciled from the succeeding sources' records only. -/
theorem mixed_run_commit :
    ∀ (cfg : RunConfig) (runId : Nat) (scope : String)
      (sources : List SourceRun) (store : Store) (s t : SourceRun),
      s ∈ sources → t ∈ sources →
      (runWithRetry cfg.cap s.outcomes).succeeded = false →
      (runWithRetry cfg.cap t.outcomes).succeeded = true →
      (coordinate cfg runId scope sources store).1.status = RunStatus.mixed ∧
      (coordinate cfg runId scope sources store).1.outcome =
        RunOutcome.committed ∧
      (coordinate cfg runId scope sources store).2 =
        store ++ [(runId, reconcileAll cfg.rc
          (validOutcomes cfg.frac (succeededRawRecords cfg.cap sources)))] := by
  intro cfg runId scope sources store s t hs ht hsf htt
  have hsm : runSource cfg.cap s ∈ runOutcomes cfg.cap sources :=
    List.mem_map_of_mem _ hs
  have htm : runSource cfg.cap t ∈ runOutcomes cfg.cap sources :=
    List.mem_map_of_mem _ ht
  have h1 : ((runOutcomes cfg.cap sources).all fun o => o.trace.succeeded)
      = false := by
    cases hh : (runOutcomes cfg.cap sources).all fun o => o.trace.succeeded
    · rfl
    · exfalso
      have htrue := List.all_eq_true.mp hh _ hsm
      simp [runSource] at htrue
      rw [hsf] at htrue
      cases htrue
  have h2 : ((runOutcomes cfg.cap sources).any fun o => o.trace.succeeded)
      = true :=
    List.any_eq_true.mpr ⟨runSource cfg.cap t, htm, by simpa [runSource] using htt⟩
  have hst : runStatusOf (runOutcomes cfg.cap sources) = RunStatus.mixed := by
    simp [runStatusOf, h1, h2]
  refine ⟨by simp [coordinate, hst], by simp [coordinate, hst], ?_⟩
  simp [coordinate, hst, collectedRaw_eq]

/-- Witness for C5: one failing source, one healthy source, empty store. -/
theorem mixed_run_commit_witness :
    (srcFailing ∈ [srcFailing, srcHealthy] ∧
      srcHealthy ∈ [srcFailing, srcHealthy] ∧
      (runWithRetry exCfg.cap srcFailing.outcomes).succeeded = false ∧
      (runWithRetry exCfg.cap srcHealthy.outcomes).succeeded = true) ∧
    ((coordinate exCfg 0 "2024" [srcFailing, srcHealthy] []).1.status =
        RunStatus.mixed ∧
      (coordinate exCfg 0 "2024" [srcFailing, srcHealthy] []).1.outcome =
        RunOutcome.committed ∧
      (coordinate exCfg 0 "2024" [srcFailing, srcHealthy] []).2 =
        [] ++ [(0, reconcileAll exCfg.rc (validOutcomes exCfg.frac
          (succeededRawRecords exCfg.cap [srcFailing, srcHealthy])))]) := by
  have hs : srcFailing ∈ [srcFailing, srcHealthy] :=
    List.mem_cons_self _ _
  have ht : srcHealthy ∈ [srcFailing, srcHealthy] :=
    List.mem_cons_of_mem _ (List.mem_cons_self _ _)
  have hsf : (runWithRetry exCfg.cap srcFailing.outcomes).succeeded = false :=
    by rfl
  have htt : (runWithRetry exCfg.cap srcHealthy.outcomes).succeeded = true :=
    by rfl
  exact ⟨⟨hs, ht, hsf, htt⟩,
    mixed_run_commit exCfg 0 "2024" [srcFailing, srcHealthy] []
      srcFailing srcHealthy hs ht hsf htt⟩

/-- C6: a RawRecord with a missing required field validates to rejected and
never appears among any CanonicalRecord's contributing records of the
pipeline's reconciled output. -/
theorem missing_required_rejected_never_contributes :
    ∀ (frac : ℚ) (cfg : ReconcileConfig) (rs : List RawRecord)
      (r : RawRecord) (f : String),
      f ∈ requiredFields → fieldMissing r f = true →
      (validate frac r).status = VStatus.rejected ∧
      ∀ cr ∈ reconcileAll cfg (validOutcomes frac rs),
        ∀ fc ∈ cr.fields, fc.2.contributor ≠ r := by
  intro frac cfg rs r f hf hm
  have hrej := validate_missing_rejected frac r f hf hm
  refine ⟨hrej, ?_⟩
  intro cr hcr fc hfc heq
  have hok := reconcileAll_contributor_valid hcr hfc
  rw [heq] at hok
  exact hok hrej

/-- Witness for C6: a record missing its required ppg field in a two-record
run. -/
theorem missing_required_rejected_never_contributes_witness :
    ("ppg" ∈ requiredFields ∧ fieldMissing recMissing "ppg" = true) ∧
    ((validate (1 / 2) recMissing).status = VStatus.rejected ∧
      ∀ cr ∈ reconcileAll exRC (validOutcomes (1 / 2) [recGood, recMissing]),
        ∀ fc ∈ cr.fields, fc.2.contributor ≠ recMissing) := by
  have hf : "ppg" ∈ requiredFields := by decide
  have hm : fieldMissing recMissing "ppg" = true := by decide
  exact ⟨⟨hf, hm⟩,
    missing_required_rejected_never_contributes (1 / 2) exRC
      [recGood, recMissing] recMissing "ppg" hf hm⟩

/-- C7: a numeric field outside its documented plausible range makes
validate return repaired with that field clamped to absent and all fields
outside the repair set untouched, unless more than the configured fraction
of required fields are invalid, in which case the record is rejected.
(Records missing a required field are rejected first; the theorem assumes
all required fields present.) -/
theorem out_of_range_repaired :
    ∀ (frac : ℚ) (r : RawRecord) (f : String) (lo hi v : ℚ),
      (f, lo, hi) ∈ numericRanges →
      getField r f = some (FieldValue.num v) →
      (v < lo ∨ hi < v) →
      missingRequired r = [] →
      (((requiredInvalidCount r : ℚ) >
          frac * (requiredFields.length : ℚ)) →
        (validate frac r).status = VStatus.rejected) ∧
      (¬ ((requiredInvalidCount r : ℚ) >
          frac * (requiredFields.length : ℚ)) →
        (validate frac r).status = VStatus.repaired ∧
        getField (validate frac r).record f = none ∧
        ∀ g, g ∉ (invalidRangeFields r).map (fun t => t.1) →
          getField (validate frac r).record g = getField r g) := by
  intro frac r f lo hi v hmem hget hout hmiss
  have hoor : outOfRange r f lo hi = true := by
    simp [outOfRange, hget]
    exact hout
  have hbad : (f, lo, hi) ∈ invalidRangeFields r :=
    List.mem_filter.mpr ⟨hmem, hoor⟩
  have hbadname : f ∈ (invalidRangeFields r).map (fun t => t.1) :=
    List.mem_map_of_mem _ hbad
  have hbne : (invalidRangeFields r).isEmpty = false := by
    rw [List.isEmpty_eq_false]
    exact List.ne_nil_of_mem hbad
  have hmemp : (missingRequired r).isEmpty = true := by rw [hmiss]; rfl
  constructor
  · intro hfr
    simp [validate, hmemp, hfr]
  · intro hfr
    have key : validate frac r =
        { record := clampToNull r ((invalidRangeFields r).map (fun t => t.1)),
          status := VStatus.repaired, violations := rangeViolations r } := by
      simp [validate, hmemp, hfr, hbne]
    refine ⟨by rw [key], ?_, ?_⟩
    · rw [key]
      exact getField_clamp_none r _ f hbadname
    · intro g hg
      rw [key]
      exact getField_clamp_of_not_mem r _ g hg

/-- Witness for C7: a record whose ppg value 55 exceeds the documented bound
50. -/
theorem out_of_range_repaired_witness :
    (("ppg", (0 : ℚ), (50 : ℚ)) ∈ numericRanges ∧
      getField recOutOfRange "ppg" = some (FieldValue.num 55) ∧
      ((55 : ℚ) < 0 ∨ (50 : ℚ) < 55) ∧
      missingRequired recOutOfRange = []) ∧
    ((((requiredInvalidCount recOutOfRange : ℚ) >
        (1 / 2 : ℚ) * (requiredFields.length : ℚ)) →
      (validate (1 / 2) recOutOfRange).status = VStatus.rejected) ∧
    (¬ (((requiredInvalidCount recOutOfRange : ℚ) >
        (1 / 2 : ℚ) * (requiredFields.length : ℚ))) →
      (validate (1 / 2) recOutOfRange).status = VStatus.repaired ∧
      getField (validate (1 / 2) recOutOfRange).record "ppg" = none ∧
      ∀ g, g ∉ (invalidRangeFields recOutOfRange).map (fun t => t.1) →
        getField (validate (1 / 2) recOutOfRange).record g =
          getField recOutOfRange g)) := by
  have h1 : ("ppg", (0 : ℚ), (50 : ℚ)) ∈ numericRanges := by decide
  have h2 : getField recOutOfRange "ppg" = some (FieldValue.num 55) := by decide
  have h3 : (55 : ℚ) < 0 ∨ (50 : ℚ) < 55 := Or.inr (by norm_num)
  have h4 : missingRequired recOutOfRange = [] := by decide
  exact ⟨⟨h1, h2, h3, h4⟩,
    out_of_range_repaired (1 / 2) recOutOfRange "ppg" 0 50 55 h1 h2 h3 h4⟩

/-- C2: the run-trigger operation never throws for partial data issues: for
every source environment (including ones where sources fail) startRun
returns a run id immediately, the run's full record with its aggregated
per-source failure detail is retrievable afterwards via getRunStatus, and
the data-collection start handler never re-throws to its caller. -/
theorem startRun_no_throw :
    ∀ (cfg : RunConfig) (scope : String) (sources : List SourceRun)
      (st : SystemState),
      WellFormedState st →
      (∃ st2 : SystemState,
        startRun cfg scope sources st = Except.ok (st.nextRunId, st2) ∧
        getRunStatus st.nextRunId st2 =
          some (coordinate cfg st.nextRunId scope sources st.store).1 ∧
        ∀ s ∈ sources, (runWithRetry cfg.cap s.outcomes).succeeded = false →
          (s.sourceId ++ ": retries exhausted") ∈
            (coordinate cfg st.nextRunId scope sources st.store).1.errors) ∧
      ∀ b, (handleStartCollection b).threw = false := by
  intro cfg scope sources st hwf
  constructor
  · refine ⟨_, rfl, ?_, ?_⟩
    · unfold getRunStatus
      rw [find?_append_none _ st.runs _ ?_]
      · simp
      · intro x hx
        have hlt := hwf x hx
        exact beq_eq_false_iff_ne.mpr (Nat.ne_of_lt hlt)
    · intro s hs hfail
      have hmem : runSource cfg.cap s ∈
          (runOutcomes cfg.cap sources).filter fun o => !o.trace.succeeded :=
        List.mem_filter.mpr ⟨List.mem_map_of_mem _ hs, by simp [runSource, hfail]⟩
      show _ ∈ (coordinate cfg st.nextRunId scope sources st.store).1.errors
      simp only [coordinate, runErrors]
      exact List.mem_map_of_mem _ hmem
  · intro b; cases b <;> rfl

/-- Witness for C2: a run over one failing and one healthy source from the
initial system state. -/
theorem startRun_no_throw_witness :
    WellFormedState exState ∧
    ((∃ st2 : SystemState,
        startRun exCfg "2024" [srcFailing, srcHealthy] exState =
          Except.ok (exState.nextRunId, st2) ∧
        getRunStatus exState.nextRunId st2 =
          some (coordinate exCfg exState.nextRunId "2024"
            [srcFailing, srcHealthy] exState.store).1 ∧
        ∀ s ∈ [srcFailing, srcHealthy],
          (runWithRetry exCfg.cap s.outcomes).succeeded = false →
          (s.sourceId ++ ": retries exhausted") ∈
            (coordinate exCfg exState.nextRunId "2024"
              [srcFailing, srcHealthy] exState.store).1.errors) ∧
      ∀ b, (handleStartCollection b).threw = false) := by
  have hwf : WellFormedState exState := by
    intro p hp
    cases hp
  exact ⟨hwf, startRun_no_throw exCfg "2024" [srcFailing, srcHealthy] exState hwf⟩
